import Mathlib

/-!
Shallow embedding of the Buddy-XTR bot module (src/module.js): credential
bootstrap (`loadGiftedSession`, `init`), the connection lifecycle handler,
the bounded message-retention cache (`messageStore`), the anti-delete
recovery handler (`handleAntiDelete`), status auto-engagement, and the
mandatory group-membership reconciler (`handleAutoJoinGroups`).

Modelling conventions: JS strings are `String` (or `List Char` where
prefix/suffix surgery is proved about), the JS `Map` is an association list
in insertion order, external sends are oracle-driven recorded actions, and
a thrown JS exception is the nearest enclosing `try` taking its catch
branch (encoded by explicit control flow / `Except`).
-/

namespace BuddyXTR

/-- JS `a || b` for an optional string, where `undefined` and `""` are falsy. -/
def jsOr (a : Option String) (d : String) : String :=
  match a with
  | some s => if s = "" then d else s
  | none => d

/-- JS `String.prototype.includes`: `pat` occurs contiguously in the list. -/
def isInfixOfL (pat : List Char) : List Char → Bool
  | [] => pat.isEmpty
  | c :: rest => pat.isPrefixOf (c :: rest) || isInfixOfL pat rest

/-- JS `s.includes("@")` (used on the configured `BOT_OWNER`). -/
def hasAtSign (s : String) : Bool := s.toList.any (fun ch => ch == '@')

/-- JS `s.endsWith(suffix)`. -/
def endsWithL (s suffix : String) : Bool :=
  suffix.toList.reverse.isPrefixOf s.toList.reverse

/-! ## Connection lifecycle (`connection.update` close branch, `start`, `init`) -/

/-- Elementary observable steps of the lifecycle code. -/
inductive Step where
  | readDiskAuth
  | connect
  | registerInterval
  | clearTimer
  | loadGifted
  | downloadLegacy
  | enableQR
deriving DecidableEq

/-- `DisconnectReason.loggedOut` (Baileys status code 401). -/
def loggedOut : Nat := 401

/-- Close branch of the `connection.update` handler:
`lastDisconnect.error?.output?.statusCode !== DisconnectReason.loggedOut`
(a missing status code compares unequal, so it also reconnects). -/
def shouldReconnect (statusCode : Option Nat) : Bool :=
  statusCode ≠ some loggedOut

/-- What `start()` performs: re-read the on-disk auth state
(`useMultiFileAuthState`), connect (`makeWASocket` plus handler
registration), and register one more 10-minute periodic reconciler timer
(`setInterval`, whose id is discarded and never cleared). -/
def startSteps : List Step := [Step.readDiskAuth, Step.connect, Step.registerInterval]

/-- The close branch: call `start()` on a recoverable cause, do nothing on
logged-out. -/
def onCloseSteps (statusCode : Option Nat) : List Step :=
  if shouldReconnect statusCode then startSteps else []

/-- The `"Buddy~"` marker used by `loadGiftedSession` / `init`. -/
def buddyMarker : List Char := ['B', 'u', 'd', 'd', 'y', '~']

/-- `init()`: credential precedence — on-disk file, gifted compressed blob,
legacy Mega.nz download, QR pairing — and then `start()` in every branch. -/
def initSteps (credsExist : Bool) (sessionId : Option (List Char))
    (giftedOk : Bool) (legacyOk : Bool) : List Step :=
  if credsExist then startSteps
  else
    let sid := sessionId.getD []
    if sid ≠ [] ∧ buddyMarker.isPrefixOf sid then
      Step.loadGifted :: (if giftedOk then startSteps else Step.enableQR :: startSteps)
    else if sid ≠ [] ∧ isInfixOfL buddyMarker sid then
      Step.downloadLegacy :: (if legacyOk then startSteps else Step.enableQR :: startSteps)
    else
      Step.enableQR :: startSteps

/-- Steps of the whole process: one `init`, then the close-handler reaction
to each connection closure, in order. -/
def processSteps (credsExist : Bool) (sessionId : Option (List Char))
    (giftedOk legacyOk : Bool) (closes : List (Option Nat)) : List Step :=
  initSteps credsExist sessionId giftedOk legacyOk ++ (closes.map onCloseSteps).flatten

/-! ## Credential bootstrap: base64 and `loadGiftedSession` -/

def b64alphabet : List Char :=
  "ABCDEFGHIJKLMNOPQRSTUVWXYZabcdefghijklmnopqrstuvwxyz0123456789+/".toList

def b64char (n : Nat) : Char := b64alphabet.getD n 'A'

def idxIn : List Char → Char → Option Nat
  | [], _ => none
  | a :: rest, c => if a = c then some 0 else (idxIn rest c).map (· + 1)

/-- Standard base64 encoding of a byte list (the encoding whose decoding
`Buffer.from(s, "base64")` performs). -/
def base64encodeList : List Nat → List Char
  | a :: b :: c :: rest =>
    b64char (a / 4) :: b64char (a % 4 * 16 + b / 16) ::
      b64char (b % 16 * 4 + c / 64) :: b64char (c % 64) :: base64encodeList rest
  | [a, b] => [b64char (a / 4), b64char (a % 4 * 16 + b / 16), b64char (b % 16 * 4), '=']
  | [a] => [b64char (a / 4), b64char (a % 4 * 16), '=', '=']
  | [] => []

/-- Base64 decoding (inverse of `base64encodeList` on its range). -/
def base64decodeList : List Char → Option (List Nat)
  | [] => some []
  | c1 :: c2 :: c3 :: c4 :: rest =>
    match idxIn b64alphabet c1, idxIn b64alphabet c2 with
    | some n1, some n2 =>
      if c3 = '=' then
        if c4 = '=' ∧ rest = [] then some [n1 * 4 + n2 / 16] else none
      else
        match idxIn b64alphabet c3 with
        | some n3 =>
          if c4 = '=' then
            if rest = [] then some [n1 * 4 + n2 / 16, n2 % 16 * 16 + n3 / 4] else none
          else
            match idxIn b64alphabet c4 with
            | some n4 =>
              (base64decodeList rest).map
                (fun tl => (n1 * 4 + n2 / 16) :: (n2 % 16 * 16 + n3 / 4) :: (n3 % 4 * 64 + n4) :: tl)
            | none => none
        | none => none
    | _, _ => none
  | _ => none

/-- `compressedBuffer[0] === 0x1f && compressedBuffer[1] === 0x8b`. -/
def gzipMagicOk : List Nat → Bool
  | b0 :: b1 :: _ => b0 == 31 && b1 == 139
  | _ => false

/-- `loadGiftedSession()`.  `gunzip` stands for the external `zlib.gunzip`
followed by `Buffer.toString("utf-8")`; `none` models a decompression error,
which the surrounding `try` turns into a not-ready result.  The return value
is the credential text written to `creds.json` (`none` = the step reports
not ready and nothing is written). -/
def loadGiftedSession (sessionId : Option (List Char))
    (gunzip : List Nat → Option String) : Option String :=
  match sessionId with
  | none => none
  | some sid =>
    if sid = [] then none
    else if buddyMarker.isPrefixOf sid then
      match base64decodeList (sid.drop 6) with
      | some buf =>
        if gzipMagicOk buf then
          match gunzip buf with
          | some sessionData => some sessionData
          | none => none
        else none
      | none => none
    else none

/-! ## Message data model and the retention cache (`messageStore`) -/

structure MsgKey where
  id : String
  remoteJid : Option String
  participant : Option String
  fromMe : Bool
deriving DecidableEq

/-- The populated payload variant of a WhatsApp message (at most one field
of the JS object is populated; the anti-delete extraction if-chain
inspects them in this order). -/
inductive MsgContent where
  | conversation (text : String)
  | extendedText (text : String)
  | image (caption : Option String)
  | video (caption : Option String)
  | audio
  | document (fileName : Option String)
  | sticker
  | protocolMsg (ptype : Nat) (key : MsgKey)
  | ephemeral
  | reaction
deriving DecidableEq

/-- An inbound message object (one element of `chatUpdate.messages`). -/
structure Mek where
  key : MsgKey
  pushName : Option String
  message : Option MsgContent
deriving DecidableEq

/-- `{ ...mek, timestamp: Date.now() }` as stored in `messageStore`. -/
structure StoredMsg where
  key : MsgKey
  pushName : Option String
  message : Option MsgContent
  timestamp : Nat
deriving DecidableEq

/-- The `messageStore` JS `Map`, as an association list in insertion order. -/
abbrev Store := List (String × StoredMsg)

def mapGet (s : Store) (id : String) : Option StoredMsg :=
  (s.find? (fun p => p.1 == id)).map Prod.snd

/-- JS `Map.set`: update in place if the key exists (keeping its position),
otherwise append. -/
def mapSet (s : Store) (id : String) (v : StoredMsg) : Store :=
  if s.any (fun p => p.1 == id) then
    s.map (fun p => if p.1 == id then (id, v) else p)
  else s ++ [(id, v)]

def mapDelete (s : Store) (id : String) : Store :=
  s.filter (fun p => p.1 != id)

/-- First entry with the least timestamp: the head of the JS
`Array.from(entries()).sort((a, b) => a[1].timestamp - b[1].timestamp)`
(stable sort, so ties keep insertion order). -/
def minEntry : Store → Option (String × StoredMsg)
  | [] => none
  | h :: t => some (t.foldl (fun acc q => if q.2.timestamp < acc.2.timestamp then q else acc) h)

def minTsKey (s : Store) : Option String := (minEntry s).map Prod.fst

/-- `messageStore.set(id, v)` followed by the over-capacity eviction
(`if (messageStore.size > 1000) { ... delete(oldestKey) }`). -/
def storePutRaw (s : Store) (id : String) (v : StoredMsg) : Store :=
  let s2 := mapSet s id v
  if s2.length > 1000 then
    match minTsKey s2 with
    | some k => mapDelete s2 k
    | none => s2
  else s2

/-- The first `messages.upsert` handler: retain `chatUpdate.messages[0]`
when anti-delete is enabled, the message has an id and a body, and it was
not sent by the bot itself. -/
def storeUpsert (enabled : Bool) (now : Nat) (batch : List Mek) (s : Store) : Store :=
  match batch with
  | [] => s
  | mek :: _ =>
    if mek.key.id != "" && mek.message.isSome && !mek.key.fromMe && enabled then
      storePutRaw s mek.key.id ⟨mek.key, mek.pushName, mek.message, now⟩
    else s

/-- A sequence of `put` operations on the cache, applied in order. -/
def runPuts (s : Store) (q : List (String × StoredMsg)) : Store :=
  q.foldl (fun acc p => storePutRaw acc p.1 p.2) s

/-- Distinct keys and strictly increasing insertion timestamps along a
put sequence (what distinct message ids and a monotone `Date.now()` give). -/
def goodSeq (l : List (String × StoredMsg)) : Prop :=
  l.Pairwise (fun a b => a.1 ≠ b.1 ∧ a.2.timestamp < b.2.timestamp)

def dummyEntry : String × StoredMsg :=
  ("", ⟨⟨"", none, none, false⟩, none, none, 0⟩)

/-! ## Anti-delete recovery and status engagement -/

inductive Payload where
  | text (s : String)
  | content (m : MsgContent)
  | react (emoji : String) (onKeyId : String)
deriving DecidableEq

/-- An external command issued through the socket. -/
inductive Action where
  | send (jid : String) (p : Payload)
  | readMessages (keyId : String)
deriving DecidableEq

/-- Attempt an external call: record it and ask the oracle (indexed by the
number of calls attempted so far) whether it succeeds or throws. -/
def att (ok : Nat → Bool) (acts : List Action) (a : Action) : List Action × Bool :=
  (acts ++ [a], ok acts.length)

/-- The content/type extraction if-chain of `handleAntiDelete` (JS truthiness:
an empty text falls through to the defaults). -/
def extractContent : Option MsgContent → String × String
  | some (MsgContent.conversation t) =>
    if t ≠ "" then (t, "Text") else ("Unknown content", "Text")
  | some (MsgContent.extendedText t) =>
    if t ≠ "" then (t, "Extended Text") else ("Unknown content", "Text")
  | some (MsgContent.image cap) => (jsOr cap "[Image Message]", "Image")
  | some (MsgContent.video cap) => (jsOr cap "[Video Message]", "Video")
  | some MsgContent.audio => ("[Audio Message]", "Audio")
  | some (MsgContent.document fn) => ("[Document] " ++ jsOr fn "File", "Document")
  | some MsgContent.sticker => ("[Sticker]", "Sticker")
  | _ => ("Unknown content", "Text")

/-- The recovery-marker rewriting of the resent payload (media captions and
document file names get tagged; everything else is resent verbatim). -/
def transformForResend : MsgContent → MsgContent
  | MsgContent.image cap =>
    MsgContent.image (some ("🗑️ [Recovered Deleted Message]\n" ++ jsOr cap ""))
  | MsgContent.video cap =>
    MsgContent.video (some ("🗑️ [Recovered Deleted Message]\n" ++ jsOr cap ""))
  | MsgContent.document fn =>
    MsgContent.document (some ("[Recovered] " ++ jsOr fn "file"))
  | m => m

def mkReportMessage (origTime delTime senderName senderJid targetJid chatType
    messageType deletedBy messageContent : String) : String :=
  "🚨 *ANTI-DELETE: DELETED MESSAGE RECOVERED* 🚨\n\n" ++
  "📅 *Original Time:* " ++ origTime ++ "\n" ++
  "🗑️ *Deleted At:* " ++ delTime ++ "\n" ++
  "👤 *Sender:* " ++ senderName ++ "\n" ++
  "📞 *Sender JID:* " ++ senderJid ++ "\n" ++
  "💬 *Chat JID/LID:* " ++ targetJid ++ "\n" ++
  "📊 *Chat Type:* " ++ chatType ++ "\n" ++
  "📝 *Message Type:* " ++ messageType ++ "\n" ++
  "👁️ *Deleted by:* " ++ deletedBy ++ "\n\n" ++
  "🗒️ *Original Message:*\n" ++ messageContent ++ "\n\n" ++
  "✅ *Message has been automatically recovered and resent to the chat.*"

def mkRecoveryInfo (senderName origTime : String) : String :=
  "🗑️ *Message Recovery*\n" ++
  "📝 This message was deleted and automatically recovered by the anti-delete system.\n" ++
  "👤 Original sender: " ++ senderName ++ "\n" ++
  "⏰ Original time: " ++ origTime

def mkFallbackMessage (senderName origTime messageType messageContent : String) : String :=
  "🗑️ *Recovered Deleted Message*\n\n" ++
  "From: " ++ senderName ++ "\n" ++
  "Time: " ++ origTime ++ "\n" ++
  "Type: " ++ messageType ++ "\n\n" ++
  "Content: " ++ messageContent

/-- `handleAntiDelete(mek, Matrix)`.  `fmt` renders a stored timestamp
(`moment(ts).format(...)`), `nowStr` is the formatted deletion time, `ok`
is the send oracle.  Control flow mirrors the JS try/catch nesting: the
report send is inside the outer try only, the resend and the recovery-info
send are inside the inner try whose catch performs the text fallback, and
the store delete runs after the inner try; any uncaught throw reaches the
outer catch, which ends the handler (returning normally). -/
def handleAntiDelete (enabled : Bool) (owner : String) (fmt : Nat → String)
    (nowStr : String) (mek : Mek) (s : Store) (ok : Nat → Bool) :
    List Action × Store :=
  if !enabled then ([], s)
  else
    match mek.message with
    | some (MsgContent.protocolMsg 0 dkey) =>
      match mapGet s dkey.id with
      | some sm =>
        let senderJid := jsOr sm.key.participant (jsOr sm.key.remoteJid "Unknown")
        let chatJid := jsOr sm.key.remoteJid "Unknown"
        let senderName := jsOr sm.pushName "Unknown"
        let origTime := fmt sm.timestamp
        let targetJid := jsOr dkey.remoteJid chatJid
        let chatType :=
          if endsWithL targetJid "@g.us" then "Group"
          else if endsWithL targetJid "@s.whatsapp.net" then "Private"
          else if endsWithL targetJid "@broadcast" then "Broadcast"
          else "Unknown"
        let mc := extractContent sm.message
        let messageContent := mc.1
        let messageType := mc.2
        let deletedBy := if dkey.fromMe then "You (Bot)" else "Other User"
        let report := mkReportMessage origTime nowStr senderName senderJid targetJid
          chatType messageType deletedBy messageContent
        let finish := fun (acts : List Action) =>
          match sm.message with
          | some content =>
            let r1 := att ok acts (Action.send targetJid
              (Payload.content (transformForResend content)))
            if r1.2 then
              if messageType == "Text" || messageType == "Extended Text" then
                let r2 := att ok r1.1 (Action.send targetJid
                  (Payload.text (mkRecoveryInfo senderName origTime)))
                if r2.2 then (r2.1, mapDelete s dkey.id)
                else
                  let r3 := att ok r2.1 (Action.send targetJid
                    (Payload.text (mkFallbackMessage senderName origTime messageType messageContent)))
                  if r3.2 then (r3.1, mapDelete s dkey.id) else (r3.1, s)
              else (r1.1, mapDelete s dkey.id)
            else
              let r3 := att ok r1.1 (Action.send targetJid
                (Payload.text (mkFallbackMessage senderName origTime messageType messageContent)))
              if r3.2 then (r3.1, mapDelete s dkey.id) else (r3.1, s)
          | none => (acts, mapDelete s dkey.id)
        if owner != "" && hasAtSign owner then
          let r0 := att ok [] (Action.send owner (Payload.text report))
          if r0.2 then finish r0.1
          else (r0.1, s)
        else finish []
      | none => ([], s)
    | _ => ([], s)

/-- `handleAutoViewStatus` (its own try/catch: a failed read is only logged). -/
def handleAutoViewStatus (enabled : Bool) (mek : Mek) (acts : List Action)
    (ok : Nat → Bool) : List Action :=
  if enabled && mek.key.remoteJid == some "status@broadcast" then
    (att ok acts (Action.readMessages mek.key.id)).1
  else acts

def likeEmojis : List String :=
  ["👍", "❤️", "🔥", "👏", "🎉", "🤩", "😍", "⚡", "💯", "✨"]

/-- `handleAutoLikeStatus` (random delay elided; the random emoji choice is
the `emojiChoice` parameter; its own try/catch swallows failures). -/
def handleAutoLikeStatus (enabled : Bool) (emojiChoice : Nat) (mek : Mek)
    (acts : List Action) (ok : Nat → Bool) : List Action :=
  if enabled && mek.key.remoteJid == some "status@broadcast" then
    (att ok acts (Action.send "status@broadcast"
      (Payload.react (likeEmojis.getD (emojiChoice % likeEmojis.length) "👍") mek.key.id))).1
  else acts

structure Config where
  antiDelete : Bool
  autoViewStatus : Bool
  autoLikeStatus : Bool
  autoStatusSeen : Bool
  autoStatusReply : Bool
  statusReadMsg : Option String
  botOwner : String

/-- The legacy status block at the end of the feature handler (inside the
handler's own try: a failed read aborts the rest of the block). -/
def statusSeenBlock (cfg : Config) (mek : Mek) (acts : List Action)
    (ok : Nat → Bool) : List Action :=
  if mek.key.remoteJid == some "status@broadcast" && cfg.autoStatusSeen then
    let r1 := att ok acts (Action.readMessages mek.key.id)
    if r1.2 then
      if cfg.autoStatusReply then
        let fromJid := jsOr mek.key.participant (jsOr mek.key.remoteJid "")
        (att ok r1.1 (Action.send fromJid
          (Payload.text (jsOr cfg.statusReadMsg "✅ Auto Status Seen Bot By JAWAD-MD")))).1
      else r1.1
    else r1.1
  else acts

/-- `mek.message?.protocolMessage || mek.message?.ephemeralMessage ||
mek.message?.reactionMessage`. -/
def isGuardedContent : Option MsgContent → Bool
  | some (MsgContent.protocolMsg _ _) => true
  | some MsgContent.ephemeral => true
  | some MsgContent.reaction => true
  | _ => false

/-- The feature `messages.upsert` handler (anti-delete, status engagement,
legacy status block): only `chatUpdate.messages[0]` is examined, and
protocol / ephemeral / reaction messages are dropped by the guard before
any feature runs.  An empty batch makes `mek.key` a TypeError that the
handler's try/catch swallows. -/
def featuresUpsert (cfg : Config) (fmt : Nat → String) (nowStr : String)
    (emojiChoice : Nat) (batch : List Mek) (s : Store) (ok : Nat → Bool) :
    List Action × Store :=
  match batch with
  | [] => ([], s)
  | mek :: _ =>
    if mek.message.isNone then ([], s)
    else if mek.key.fromMe then ([], s)
    else if isGuardedContent mek.message then ([], s)
    else
      let r := handleAntiDelete cfg.antiDelete cfg.botOwner fmt nowStr mek s ok
      let a2 := handleAutoViewStatus cfg.autoViewStatus mek r.1 ok
      let a3 := handleAutoLikeStatus cfg.autoLikeStatus emojiChoice mek a2 ok
      let a4 := statusSeenBlock cfg mek a3 ok
      (a4, r.2)

/-! ## Membership reconciler (`joinGroupByInviteCode`, `handleAutoJoinGroups`) -/

/-- Outcome of one external send, distinguishing the two JS failure modes:
a rejected promise (handled by an attached `.catch`) and a synchronous
throw before a promise is returned (which `.catch` never sees). -/
inductive SendBehavior where
  | succeeds
  | rejects
  | throwsSync (msg : List Char)
deriving DecidableEq

def waMarker : List Char := "chat.whatsapp.com/".toList

def dropThroughFirst (pat : List Char) : List Char → List Char
  | [] => []
  | c :: rest =>
    if pat.isPrefixOf (c :: rest) then (c :: rest).drop pat.length
    else dropThroughFirst pat rest

def takeUntilMarker (pat : List Char) : List Char → List Char
  | [] => []
  | c :: rest =>
    if pat.isPrefixOf (c :: rest) then []
    else c :: takeUntilMarker pat rest

/-- `inviteCode.split("chat.whatsapp.com/")[1]`: the segment after the first
marker occurrence (up to the next occurrence, if any); a code without the
marker is used as is. -/
def extractInviteCode (inviteCode : List Char) : List Char :=
  if isInfixOfL waMarker inviteCode then
    takeUntilMarker waMarker (dropThroughFirst waMarker inviteCode)
  else inviteCode

inductive JoinOutcome where
  | joinedNew
  | alreadyIn
  | failed (error : List Char)
deriving DecidableEq

/-- `joinGroupByInviteCode`: run `groupAcceptInvite` (external; `accept`
returns its outcome, an exception carrying an error message) and classify a
failure by substring matching on the message text. -/
def joinGroupByInviteCode (inviteCode : List Char)
    (accept : List Char → Except (List Char) Unit) : JoinOutcome :=
  match accept (extractInviteCode inviteCode) with
  | Except.ok _ => JoinOutcome.joinedNew
  | Except.error msg =>
    if isInfixOfL "already".toList msg then JoinOutcome.alreadyIn
    else if isInfixOfL "invite".toList msg || isInfixOfL "invalid".toList msg then
      JoinOutcome.failed "Invalid or expired invite link".toList
    else if isInfixOfL "rate".toList msg || isInfixOfL "limit".toList msg then
      JoinOutcome.failed "Rate limit".toList
    else JoinOutcome.failed msg

/-- One element of the `results` array pushed per target. -/
structure JoinRecord where
  group : String
  success : Bool
  error : Option (List Char)
  alreadyInGroup : Bool
deriving DecidableEq

def recordOf (name : String) : JoinOutcome → JoinRecord
  | JoinOutcome.joinedNew => ⟨name, true, none, false⟩
  | JoinOutcome.alreadyIn => ⟨name, true, none, true⟩
  | JoinOutcome.failed e => ⟨name, false, some e, false⟩

structure GroupTarget where
  name : String
  inviteCode : List Char
deriving DecidableEq

/-- The counters and results accumulated by the reconciliation walk. -/
structure LoopAcc where
  joined : Nat
  alreadyIn : Nat
  failed : Nat
  results : List JoinRecord
deriving DecidableEq

/-- The per-target walk of `handleAutoJoinGroups` (the oracle `o i` is the
`groupAcceptInvite` behaviour on the `i`-th attempt; inter-attempt delays
elided; one target's failure never stops the loop). -/
def joinLoop (o : Nat → List Char → Except (List Char) Unit) (i : Nat) :
    List GroupTarget → LoopAcc
  | [] => ⟨0, 0, 0, []⟩
  | g :: rest =>
    let r := joinGroupByInviteCode g.inviteCode (o i)
    let acc := joinLoop o (i + 1) rest
    match r with
    | JoinOutcome.joinedNew =>
      ⟨acc.joined + 1, acc.alreadyIn, acc.failed, recordOf g.name r :: acc.results⟩
    | JoinOutcome.alreadyIn =>
      ⟨acc.joined, acc.alreadyIn + 1, acc.failed, recordOf g.name r :: acc.results⟩
    | JoinOutcome.failed _ =>
      ⟨acc.joined, acc.alreadyIn, acc.failed + 1, recordOf g.name r :: acc.results⟩

/-- The classified outcome of each attempt, in target order. -/
def outcomesFrom (o : Nat → List Char → Except (List Char) Unit) (i : Nat) :
    List GroupTarget → List JoinOutcome
  | [] => []
  | g :: rest => joinGroupByInviteCode g.inviteCode (o i) :: outcomesFrom o (i + 1) rest

def isJoinedO : JoinOutcome → Bool
  | JoinOutcome.joinedNew => true
  | _ => false

def isAlreadyO : JoinOutcome → Bool
  | JoinOutcome.alreadyIn => true
  | _ => false

def isFailedO : JoinOutcome → Bool
  | JoinOutcome.failed _ => true
  | _ => false

/-- The summary object returned by `handleAutoJoinGroups`. -/
structure JoinSummary where
  total : Nat
  joined : Nat
  alreadyIn : Nat
  failed : Nat
  results : List JoinRecord
deriving DecidableEq

def mkSummary (groups : List GroupTarget)
    (o : Nat → List Char → Except (List Char) Unit) : JoinSummary :=
  let acc := joinLoop o 0 groups
  ⟨groups.length, acc.joined, acc.alreadyIn, acc.failed, acc.results⟩

/-- `handleAutoJoinGroups(Matrix)`: walk the targets, then (if an owner is
configured) send the summary with `.catch` attached — so a rejection is
swallowed, while a synchronous throw reaches the outer catch, which sends a
best-effort error report (again `.catch`-guarded) and rethrows
(`throw error`). -/
def handleAutoJoinGroups (groups : List GroupTarget)
    (o : Nat → List Char → Except (List Char) Unit) (owner : String)
    (summarySend errorSend : SendBehavior) : Except (List Char) JoinSummary :=
  if owner != "" && hasAtSign owner then
    match summarySend with
    | SendBehavior.throwsSync m =>
      match errorSend with
      | SendBehavior.throwsSync m2 => Except.error m2
      | _ => Except.error m
    | _ => Except.ok (mkSummary groups o)
  else Except.ok (mkSummary groups o)

/-- The open branch of the `connection.update` handler awaits
`handleAutoJoinGroups` with no surrounding try/catch, so the run's error
propagates out of the handler; on success the handler completes
(`sendConnectMessage` catches its own errors). -/
def openHandlerResult (run : Except (List Char) JoinSummary) :
    Except (List Char) Unit :=
  match run with
  | Except.error e => Except.error e
  | Except.ok _ => Except.ok ()

/-- The `setInterval` callback calls `handleAutoJoinGroups(Matrix)` without
`await` and without attaching any rejection handler: the callback itself
always completes (first component), and the detached run's outcome is left
as is, with nothing catching it (second component). -/
def periodicTick (run : Except (List Char) JoinSummary) :
    Except (List Char) Unit × Except (List Char) JoinSummary :=
  (Except.ok (), run)

/-- The built-in `MANDATORY_GROUPS`. -/
def mandatoryGroups : List GroupTarget :=
  [⟨"Group 1", "DdhFa7LbzeTKRG9hSHkzoW".toList⟩,
   ⟨"Group 2", "Dn0uPVabXugIro9BgmGilM".toList⟩,
   ⟨"Group 3", "F4wbivBj6Qg1ZPDAi9GAag".toList⟩]

/-! ## Concrete sample data used by witnesses and counterexamples -/

def gzSample : List Nat := [31, 139, 8, 0, 65]

def gunzipSample : List Nat → Option String :=
  fun b => if b = gzSample then some "SESSIONDATA" else none

def helloKey : MsgKey := ⟨"m1", some "chat1@s.whatsapp.net", none, false⟩

def helloStored : StoredMsg :=
  ⟨helloKey, some "Alice", some (MsgContent.conversation "Hello world"), 5⟩

def helloStore : Store := [("m1", helloStored)]

/-- An inbound deletion notice (protocolMessage type 0) for `helloStored`. -/
def deleteNotice : Mek :=
  ⟨⟨"d1", some "chat1@s.whatsapp.net", none, false⟩, none,
   some (MsgContent.protocolMsg 0 helloKey)⟩

def cfgAntiDelete : Config := ⟨true, false, false, false, false, none, ""⟩

def fmtConst : Nat → String := fun _ => "2024-01-01 00:00:00"

def allOk : Nat → Bool := fun _ => true

def okFailFirst : Nat → Bool := fun n => !(n == 0)

def okFailSecond : Nat → Bool := fun n => !(n == 1)

def sampleStored (i : String) (t : Nat) : StoredMsg :=
  ⟨⟨i, some "c@s.whatsapp.net", none, false⟩, some "Alice",
   some (MsgContent.conversation "hi"), t⟩

def cg1 : GroupTarget := ⟨"Group 1", "DdhFa7LbzeTKRG9hSHkzoW".toList⟩
def cg2 : GroupTarget := ⟨"Group 2", "Dn0uPVabXugIro9BgmGilM".toList⟩
def cg3 : GroupTarget := ⟨"Group 3", "F4wbivBj6Qg1ZPDAi9GAag".toList⟩
def cg4 : GroupTarget := ⟨"Config Group 1", "ExtraCode1".toList⟩
def cg5 : GroupTarget := ⟨"Config Group 2", "ExtraCode2".toList⟩

def putsSample : List (String × StoredMsg) :=
  [("a", sampleStored "a" 1), ("b", sampleStored "b" 2)]

def c7oracle : Nat → List Char → Except (List Char) Unit :=
  fun i _ => if i = 2 then Except.error "boom".toList else Except.ok ()

/-! ## Helper lemmas: lifecycle traces -/

theorem startSteps_count_register : startSteps.count Step.registerInterval = 1 := by decide

theorem startSteps_count_clear : startSteps.count Step.clearTimer = 0 := by decide

theorem initSteps_count_register (a : Bool) (b : Option (List Char)) (c d : Bool) :
    (initSteps a b c d).count Step.registerInterval = 1 := by
  unfold initSteps
  dsimp only
  split_ifs <;> decide

theorem initSteps_count_clear (a : Bool) (b : Option (List Char)) (c d : Bool) :
    (initSteps a b c d).count Step.clearTimer = 0 := by
  unfold initSteps
  dsimp only
  split_ifs <;> decide

theorem onCloseSteps_recoverable {c : Option Nat} (h : c ≠ some loggedOut) :
    onCloseSteps c = startSteps := by
  unfold onCloseSteps shouldReconnect
  simp [h]

theorem flatten_count_register (closes : List (Option Nat))
    (h : ∀ c ∈ closes, c ≠ some loggedOut) :
    ((closes.map onCloseSteps).flatten).count Step.registerInterval = closes.length := by
  induction closes with
  | nil => rfl
  | cons c cs ih =>
    have hc : c ≠ some loggedOut := h c (by simp)
    have ihh := ih (fun x hx => h x (by simp [hx]))
    simp only [List.map_cons, List.flatten_cons, List.count_append, ihh,
      onCloseSteps_recoverable hc, startSteps_count_register, List.length_cons]
    omega

theorem flatten_count_clear (closes : List (Option Nat)) :
    ((closes.map onCloseSteps).flatten).count Step.clearTimer = 0 := by
  induction closes with
  | nil => rfl
  | cons c cs ih =>
    simp only [List.map_cons, List.flatten_cons, List.count_append, ih]
    unfold onCloseSteps
    split <;> decide

/-! ## Claim C3 -/

/-- C3: the close branch of the `connection.update` handler initiates a
restart (`start()`, which includes a `connect` step) exactly when the close
cause is not the terminal logged-out status code; on a logged-out closure it
performs no step at all, so no further connect attempt is initiated by the
lifecycle code. -/
theorem c3_close_handler (c : Option Nat) :
    onCloseSteps c = (if c = some loggedOut then [] else startSteps) ∧
    Step.connect ∈ startSteps ∧
    onCloseSteps (some loggedOut) = [] := by
  refine ⟨?_, by decide, by decide⟩
  unfold onCloseSteps shouldReconnect
  by_cases h : c = some loggedOut <;> simp [h]

/-! ## Claim C5 -/

/-- C5 counterexample: with no on-disk credential and a `Buddy~`-prefixed
session identifier, `init()` runs the bootstrapper step `loadGifted` before
`start()`, but the restart performed by the close handler on a recoverable
closure (status 500) is only `start()` — it contains no bootstrapper step,
so the restart does not re-run the entire sequence from the Credential
Bootstrapper as the claim states. -/
theorem c5_counterexample :
    Step.loadGifted ∈ initSteps false (some "Buddy~AAAA".toList) true true ∧
    onCloseSteps (some 500) = startSteps ∧
    Step.loadGifted ∉ onCloseSteps (some 500) ∧
    onCloseSteps (some 500) ≠ initSteps false (some "Buddy~AAAA".toList) true true := by
  decide

/-- C5 amended: on every recoverable (non-logout) closure the handler
restarts only `start()` — it re-reads the on-disk auth state and connects
and registers another periodic timer, but never re-runs the
compressed-inline (`loadGifted`) or legacy remote-archive
(`downloadLegacy`) bootstrap steps; those run only inside `init()` at
process start. -/
theorem c5_amended (c : Option Nat) (h : c ≠ some loggedOut) :
    onCloseSteps c = startSteps ∧
    Step.loadGifted ∉ startSteps ∧
    Step.downloadLegacy ∉ startSteps ∧
    Step.readDiskAuth ∈ startSteps :=
  ⟨onCloseSteps_recoverable h, by decide, by decide, by decide⟩

/-- C5 witness: the amended statement at the concrete close cause 428. -/
theorem c5_amended_witness :
    onCloseSteps (some 428) = startSteps ∧
    Step.loadGifted ∉ startSteps ∧
    Step.downloadLegacy ∉ startSteps ∧
    Step.readDiskAuth ∈ startSteps :=
  c5_amended (some 428) (by decide)

/-! ## Claim C10 -/

/-- C10: every run of `start()` registers one more 10-minute reconciler
timer whose id is never cleared, so after `init()` plus N recoverable
reconnects the process trace contains N + 1 `registerInterval` steps and no
timer-clearing step — the reconciler is then invoked N + 1 times per
10-minute period. -/
theorem c10_interval_accumulation (credsExist : Bool) (sid : Option (List Char))
    (g l : Bool) (closes : List (Option Nat))
    (h : ∀ c ∈ closes, c ≠ some loggedOut) :
    (processSteps credsExist sid g l closes).count Step.registerInterval
      = closes.length + 1 ∧
    (processSteps credsExist sid g l closes).count Step.clearTimer = 0 := by
  unfold processSteps
  rw [List.count_append, List.count_append]
  constructor
  · rw [initSteps_count_register, flatten_count_register closes h]; omega
  · rw [initSteps_count_clear, flatten_count_clear closes]

/-- C10 witness: two recoverable closes give three registered timers. -/
theorem c10_witness :
    (processSteps false none true true [some 500, none]).count Step.registerInterval
      = [some 500, none].length + 1 ∧
    (processSteps false none true true [some 500, none]).count Step.clearTimer = 0 :=
  c10_interval_accumulation false none true true [some 500, none] (by decide)

/-! ## Claim C8 -/

/-- C8 counterexample: when the summary-reporting stage of a reconciliation
run fails with a synchronous throw, `handleAutoJoinGroups` rethrows the
error; the connection-open handler (which has no surrounding try/catch)
propagates it rather than catching it at the caller boundary, and the
periodic-timer callback leaves the detached run's error unhandled — so the
claim that callers catch the error as a soft failure is false. -/
theorem c8_counterexample :
    handleAutoJoinGroups mandatoryGroups (fun _ _ => Except.ok ())
        "owner@s.whatsapp.net" (SendBehavior.throwsSync "boom".toList)
        SendBehavior.succeeds = Except.error "boom".toList ∧
    openHandlerResult (Except.error "boom".toList) ≠ Except.ok () ∧
    openHandlerResult (Except.error "boom".toList) = Except.error "boom".toList ∧
    (periodicTick (Except.error "boom".toList)).2 = Except.error "boom".toList := by
  refine ⟨?_, fun h => Except.noConfusion h, rfl, rfl⟩
  unfold handleAutoJoinGroups
  rw [if_pos (by decide)]

/-- C8 amended: an error raised outside the per-target try (here: the
summary send throwing synchronously past its `.catch`) is rethrown by
`handleAutoJoinGroups` after the best-effort error report, and neither
caller contains it: the connection-open handler propagates the same error
to the event dispatcher, and the timer callback completes without awaiting
while the detached run's error remains uncaught. -/
theorem c8_amended (groups : List GroupTarget)
    (o : Nat → List Char → Except (List Char) Unit) (owner : String)
    (m : List Char) (h1 : owner ≠ "") (h2 : hasAtSign owner = true) :
    handleAutoJoinGroups groups o owner (SendBehavior.throwsSync m) SendBehavior.succeeds
      = Except.error m ∧
    openHandlerResult (handleAutoJoinGroups groups o owner (SendBehavior.throwsSync m)
      SendBehavior.succeeds) = Except.error m ∧
    (periodicTick (handleAutoJoinGroups groups o owner (SendBehavior.throwsSync m)
      SendBehavior.succeeds)).2 = Except.error m := by
  have hcond : (owner != "" && hasAtSign owner) = true := by
    simp [bne_iff_ne, h1, h2]
  have hrun : handleAutoJoinGroups groups o owner (SendBehavior.throwsSync m)
      SendBehavior.succeeds = Except.error m := by
    unfold handleAutoJoinGroups
    rw [if_pos hcond]
  exact ⟨hrun, by rw [hrun]; rfl, by rw [hrun]; rfl⟩

/-- C8 witness: the amended statement at a concrete owner and error. -/
theorem c8_amended_witness :
    handleAutoJoinGroups mandatoryGroups (fun _ _ => Except.ok ())
        "o@x" (SendBehavior.throwsSync "oops".toList) SendBehavior.succeeds
      = Except.error "oops".toList ∧
    openHandlerResult (handleAutoJoinGroups mandatoryGroups (fun _ _ => Except.ok ())
      "o@x" (SendBehavior.throwsSync "oops".toList) SendBehavior.succeeds)
      = Except.error "oops".toList ∧
    (periodicTick (handleAutoJoinGroups mandatoryGroups (fun _ _ => Except.ok ())
      "o@x" (SendBehavior.throwsSync "oops".toList) SendBehavior.succeeds)).2
      = Except.error "oops".toList :=
  c8_amended mandatoryGroups (fun _ _ => Except.ok ()) "o@x" "oops".toList
    (by decide) (by decide)

/-! ## Helper lemmas: base64 round trip -/

theorem idxIn_b64char : ∀ n, n < 64 → idxIn b64alphabet (b64char n) = some n := by decide

theorem b64char_ne_pad : ∀ n, n < 64 → b64char n ≠ '=' := by decide

theorem b64_roundtrip :
    ∀ l : List Nat, (∀ x ∈ l, x < 256) →
      base64decodeList (base64encodeList l) = some l
  | [], _ => rfl
  | [a], h => by
    have ha : a < 256 := h a (by simp)
    have h1 := idxIn_b64char (a / 4) (by omega)
    have h2 := idxIn_b64char (a % 4 * 16) (by omega)
    simp [base64encodeList, base64decodeList, h1, h2]
    omega
  | [a, b], h => by
    have ha : a < 256 := h a (by simp)
    have hb : b < 256 := h b (by simp)
    have h1 := idxIn_b64char (a / 4) (by omega)
    have h2 := idxIn_b64char (a % 4 * 16 + b / 16) (by omega)
    have h3 := idxIn_b64char (b % 16 * 4) (by omega)
    have hne3 := b64char_ne_pad (b % 16 * 4) (by omega)
    simp [base64encodeList, base64decodeList, h1, h2, h3, if_neg hne3]
    omega
  | a :: b :: c :: rest, h => by
    have ha : a < 256 := h a (by simp)
    have hb : b < 256 := h b (by simp)
    have hc : c < 256 := h c (by simp)
    have ih := b64_roundtrip rest (fun x hx => h x (by simp [hx]))
    have h1 := idxIn_b64char (a / 4) (by omega)
    have h2 := idxIn_b64char (a % 4 * 16 + b / 16) (by omega)
    have h3 := idxIn_b64char (b % 16 * 4 + c / 64) (by omega)
    have h4 := idxIn_b64char (c % 64) (by omega)
    have hne3 := b64char_ne_pad (b % 16 * 4 + c / 64) (by omega)
    have hne4 := b64char_ne_pad (c % 64) (by omega)
    simp [base64encodeList, base64decodeList, h1, h2, h3, h4, if_neg hne3,
      if_neg hne4, ih]
    omega

/-! ## Claim C6 -/

/-- C6: for every credential text `s`, running the bootstrapper step on the
session identifier `"Buddy~" ++ base64(gz)` — where `gz` is any gzip output
for `s`, i.e. any byte list starting with the gzip magic bytes `1f 8b` that
the external `gunzip` decompresses back to `s` — succeeds and writes
exactly `s` to the on-disk credential store. -/
theorem c6_gifted_session (gunzip : List Nat → Option String) (s : String)
    (gz : List Nat) (hbytes : ∀ x ∈ gz, x < 256)
    (hmagic : gz.take 2 = [31, 139]) (hgun : gunzip gz = some s) :
    loadGiftedSession (some (buddyMarker ++ base64encodeList gz)) gunzip = some s := by
  obtain ⟨b0, t0, rfl⟩ : ∃ b0 t0, gz = b0 :: t0 := by
    cases gz with
    | nil => simp at hmagic
    | cons x xs => exact ⟨x, xs, rfl⟩
  obtain ⟨b1, t1, rfl⟩ : ∃ b1 t1, t0 = b1 :: t1 := by
    cases t0 with
    | nil => simp at hmagic
    | cons x xs => exact ⟨x, xs, rfl⟩
  simp only [List.take, List.cons.injEq] at hmagic
  obtain ⟨rfl, rfl, -⟩ := hmagic
  have hne : buddyMarker ++ base64encodeList (31 :: 139 :: t1) ≠ [] := by
    simp [buddyMarker]
  have hpre : buddyMarker.isPrefixOf (buddyMarker ++ base64encodeList (31 :: 139 :: t1))
      = true := by
    simp [buddyMarker, List.isPrefixOf]
  have hdrop : (buddyMarker ++ base64encodeList (31 :: 139 :: t1)).drop 6
      = base64encodeList (31 :: 139 :: t1) := by
    simp [buddyMarker]
  have hrt := b64_roundtrip (31 :: 139 :: t1) hbytes
  have hm : gzipMagicOk (31 :: 139 :: t1) = true := rfl
  simp [loadGiftedSession, hne, hpre, hdrop, hrt, hm, hgun]

/-- C6 witness: the claim at the concrete credential `"SESSIONDATA"` and a
concrete five-byte gzip blob. -/
theorem c6_witness :
    loadGiftedSession (some (buddyMarker ++ base64encodeList gzSample)) gunzipSample
      = some "SESSIONDATA" :=
  c6_gifted_session gunzipSample "SESSIONDATA" gzSample (by decide) (by decide)
    (by simp [gunzipSample])

/-! ## Helper lemmas: reconciler walk -/

theorem joinLoop_closed (o : Nat → List Char → Except (List Char) Unit) :
    ∀ (gs : List GroupTarget) (i : Nat),
      joinLoop o i gs =
        ⟨(outcomesFrom o i gs).countP isJoinedO,
         (outcomesFrom o i gs).countP isAlreadyO,
         (outcomesFrom o i gs).countP isFailedO,
         List.zipWith recordOf (gs.map GroupTarget.name) (outcomesFrom o i gs)⟩
  | [], i => rfl
  | g :: rest, i => by
    have ih := joinLoop_closed o rest (i + 1)
    simp only [joinLoop, outcomesFrom, ih, List.map_cons, List.zipWith_cons_cons,
      List.countP_cons]
    cases joinGroupByInviteCode g.inviteCode (o i) <;>
      simp [isJoinedO, isAlreadyO, isFailedO, recordOf]

/-! ## Claim C7 -/

/-- C7: reconciling five targets where the join attempt for target 3 throws
with a message matching no classifier substring produces a summary in which
target 3 is recorded as a non-already failure carrying that message
(classified `other`), targets 4 and 5 are still attempted (five results),
the failure count is one more than the failures among the other four
targets, and already-member outcomes are counted in `alreadyIn` (success),
never in `failed`. -/
theorem c7_reconciler (g1 g2 g3 g4 g5 : GroupTarget)
    (o : Nat → List Char → Except (List Char) Unit) (msg : List Char)
    (hthrow : o 2 (extractInviteCode g3.inviteCode) = Except.error msg)
    (hm1 : isInfixOfL "already".toList msg = false)
    (hm2 : isInfixOfL "invite".toList msg = false)
    (hm3 : isInfixOfL "invalid".toList msg = false)
    (hm4 : isInfixOfL "rate".toList msg = false)
    (hm5 : isInfixOfL "limit".toList msg = false) :
    handleAutoJoinGroups [g1, g2, g3, g4, g5] o "" SendBehavior.succeeds
        SendBehavior.succeeds = Except.ok (mkSummary [g1, g2, g3, g4, g5] o) ∧
    (mkSummary [g1, g2, g3, g4, g5] o).results.length = 5 ∧
    (mkSummary [g1, g2, g3, g4, g5] o).results.get? 2
      = some ⟨g3.name, false, some msg, false⟩ ∧
    (mkSummary [g1, g2, g3, g4, g5] o).failed
      = ([joinGroupByInviteCode g1.inviteCode (o 0),
          joinGroupByInviteCode g2.inviteCode (o 1),
          joinGroupByInviteCode g4.inviteCode (o 3),
          joinGroupByInviteCode g5.inviteCode (o 4)]).countP isFailedO + 1 ∧
    (mkSummary [g1, g2, g3, g4, g5] o).alreadyIn
      = ([joinGroupByInviteCode g1.inviteCode (o 0),
          joinGroupByInviteCode g2.inviteCode (o 1),
          joinGroupByInviteCode g4.inviteCode (o 3),
          joinGroupByInviteCode g5.inviteCode (o 4)]).countP isAlreadyO ∧
    (mkSummary [g1, g2, g3, g4, g5] o).joined
      = ([joinGroupByInviteCode g1.inviteCode (o 0),
          joinGroupByInviteCode g2.inviteCode (o 1),
          joinGroupByInviteCode g4.inviteCode (o 3),
          joinGroupByInviteCode g5.inviteCode (o 4)]).countP isJoinedO := by
  have hc3 : joinGroupByInviteCode g3.inviteCode (o 2) = JoinOutcome.failed msg := by
    unfold joinGroupByInviteCode
    rw [hthrow]
    simp only [hm1, hm2, hm3, hm4, hm5]
    simp
  have hsum := joinLoop_closed o [g1, g2, g3, g4, g5] 0
  refine ⟨?_, ?_, ?_, ?_, ?_, ?_⟩
  · unfold handleAutoJoinGroups
    rw [if_neg (by decide)]
  all_goals
    simp [mkSummary, hsum, outcomesFrom, hc3, recordOf, List.countP_cons,
      isFailedO, isAlreadyO, isJoinedO]
  all_goals omega

/-- C7 witness: five concrete targets where the third attempt throws
`"boom"` and all others succeed. -/
theorem c7_witness :
    handleAutoJoinGroups [cg1, cg2, cg3, cg4, cg5] c7oracle "" SendBehavior.succeeds
        SendBehavior.succeeds = Except.ok (mkSummary [cg1, cg2, cg3, cg4, cg5] c7oracle) ∧
    (mkSummary [cg1, cg2, cg3, cg4, cg5] c7oracle).results.length = 5 ∧
    (mkSummary [cg1, cg2, cg3, cg4, cg5] c7oracle).results.get? 2
      = some ⟨cg3.name, false, some "boom".toList, false⟩ ∧
    (mkSummary [cg1, cg2, cg3, cg4, cg5] c7oracle).failed
      = ([joinGroupByInviteCode cg1.inviteCode (c7oracle 0),
          joinGroupByInviteCode cg2.inviteCode (c7oracle 1),
          joinGroupByInviteCode cg4.inviteCode (c7oracle 3),
          joinGroupByInviteCode cg5.inviteCode (c7oracle 4)]).countP isFailedO + 1 ∧
    (mkSummary [cg1, cg2, cg3, cg4, cg5] c7oracle).alreadyIn
      = ([joinGroupByInviteCode cg1.inviteCode (c7oracle 0),
          joinGroupByInviteCode cg2.inviteCode (c7oracle 1),
          joinGroupByInviteCode cg4.inviteCode (c7oracle 3),
          joinGroupByInviteCode cg5.inviteCode (c7oracle 4)]).countP isAlreadyO ∧
    (mkSummary [cg1, cg2, cg3, cg4, cg5] c7oracle).joined
      = ([joinGroupByInviteCode cg1.inviteCode (c7oracle 0),
          joinGroupByInviteCode cg2.inviteCode (c7oracle 1),
          joinGroupByInviteCode cg4.inviteCode (c7oracle 3),
          joinGroupByInviteCode cg5.inviteCode (c7oracle 4)]).countP isJoinedO :=
  c7_reconciler cg1 cg2 cg3 cg4 cg5 c7oracle "boom".toList rfl rfl rfl rfl rfl rfl

/-! ## Helper lemmas: store keys -/

theorem keys_mapSet (s : Store) (id : String) (v : StoredMsg) :
    (mapSet s id v).map Prod.fst ⊆ id :: s.map Prod.fst := by
  unfold mapSet
  split
  · intro k hk
    simp only [List.map_map, List.mem_map, Function.comp] at hk
    obtain ⟨p, hp, hk⟩ := hk
    by_cases hpid : (p.1 == id) = true
    · simp only [hpid, if_true] at hk
      exact hk ▸ List.mem_cons_self _ _
    · simp only [hpid] at hk
      simp only [Bool.false_eq_true, if_false] at hk
      exact List.mem_cons_of_mem _ (hk ▸ List.mem_map_of_mem Prod.fst hp)
  · intro k hk
    simp only [List.map_append, List.mem_append, List.map_cons, List.map_nil,
      List.mem_singleton] at hk
    rcases hk with hk | hk
    · exact List.mem_cons_of_mem _ hk
    · exact hk ▸ List.mem_cons_self _ _

theorem keys_mapDelete (s : Store) (id : String) :
    (mapDelete s id).map Prod.fst ⊆ s.map Prod.fst := by
  intro k hk
  simp only [mapDelete, List.mem_map] at hk ⊢
  obtain ⟨p, hp, rfl⟩ := hk
  exact ⟨p, List.mem_of_mem_filter hp, rfl⟩

theorem keys_storePutRaw (s : Store) (id : String) (v : StoredMsg) :
    (storePutRaw s id v).map Prod.fst ⊆ id :: s.map Prod.fst := by
  unfold storePutRaw
  dsimp only
  split
  · split
    · intro k hk
      exact keys_mapSet s id v (keys_mapDelete _ _ hk)
    · exact keys_mapSet s id v
  · exact keys_mapSet s id v

/-! ## Claim C9 -/

/-- C9: for every inbound `messages.upsert` batch, both the retention-store
handler and the feature handler depend only on `messages[0]` — processing a
batch `m :: rest` is identical to processing `[m]` — and the store after the
event contains no key other than `m`'s id and the previously present keys,
so messages at index 1 and beyond are never retained or processed. -/
theorem c9_only_first_of_batch (cfg : Config) (fmt : Nat → String) (nowStr : String)
    (emojiChoice : Nat) (m : Mek) (rest : List Mek) (s : Store)
    (ok : Nat → Bool) (enabled : Bool) (now : Nat) :
    featuresUpsert cfg fmt nowStr emojiChoice (m :: rest) s ok
      = featuresUpsert cfg fmt nowStr emojiChoice [m] s ok ∧
    storeUpsert enabled now (m :: rest) s = storeUpsert enabled now [m] s ∧
    (storeUpsert enabled now (m :: rest) s).map Prod.fst ⊆ m.key.id :: s.map Prod.fst := by
  refine ⟨rfl, rfl, ?_⟩
  dsimp only [storeUpsert]
  split
  · exact keys_storePutRaw s m.key.id ⟨m.key, m.pushName, m.message, now⟩
  · exact fun k hk => List.mem_cons_of_mem _ hk

/-! ## Claim C1 -/

/-- C1 (code-bug evidence): the feature `messages.upsert` handler drops any
protocol message at its guard, so an inbound deletion notice whose key
matches the retained text message `"Hello world"` produces no send at all
and leaves the cache entry in place — yet `handleAntiDelete` itself, had it
been reached, would resend the literal text `"Hello world"` to the original
chat and remove the entry (a subsequent get returning absent), which is the
behaviour the claim describes. -/
theorem c1_delete_recovery_dead_code :
    featuresUpsert cfgAntiDelete fmtConst "2024-01-02 00:00:00" 0 [deleteNotice]
        helloStore allOk = ([], helloStore) ∧
    mapGet helloStore "m1" = some helloStored ∧
    (handleAntiDelete true "" fmtConst "2024-01-02 00:00:00" deleteNotice helloStore
        allOk).1.head?
      = some (Action.send "chat1@s.whatsapp.net"
          (Payload.content (MsgContent.conversation "Hello world"))) ∧
    (handleAntiDelete true "" fmtConst "2024-01-02 00:00:00" deleteNotice helloStore
        allOk).2 = [] ∧
    mapGet (handleAntiDelete true "" fmtConst "2024-01-02 00:00:00" deleteNotice
        helloStore allOk).2 "m1" = none := by
  decide

/-! ## Claim C4 -/

/-- C4 counterexample: with a configured report recipient, if the report
send throws, `handleAntiDelete` reaches its outer catch: the only attempted
send is the report itself — no resend and no fallback — and the cache entry
is not removed, contradicting the claim that a report-send failure does not
abort the recovery. -/
theorem c4_counterexample :
    (handleAntiDelete true "boss@s.whatsapp.net" fmtConst "2024-01-02 00:00:00"
        deleteNotice helloStore (fun _ => false)).1.length = 1 ∧
    (handleAntiDelete true "boss@s.whatsapp.net" fmtConst "2024-01-02 00:00:00"
        deleteNotice helloStore (fun _ => false)).2 = helloStore ∧
    mapGet (handleAntiDelete true "boss@s.whatsapp.net" fmtConst "2024-01-02 00:00:00"
        deleteNotice helloStore (fun _ => false)).2 "m1" = some helloStored := by
  decide

/-- C4 amended: for a matched deletion notice with a configured report
recipient, a failing report send aborts the recovery (one attempted send,
store unchanged) though the handler still returns normally through its
outer catch; whereas when the report succeeds and the resend fails, the
fallback text send and the unconditional cache-entry removal still occur
(three attempted sends, entry deleted). -/
theorem c4_amended (owner : String) (fmt : Nat → String) (nowStr : String)
    (mek : Mek) (s : Store) (dkey : MsgKey) (sm : StoredMsg) (content : MsgContent)
    (hmek : mek.message = some (MsgContent.protocolMsg 0 dkey))
    (hget : mapGet s dkey.id = some sm)
    (hcontent : sm.message = some content)
    (h1 : owner ≠ "") (h2 : hasAtSign owner = true) :
    ((handleAntiDelete true owner fmt nowStr mek s (fun _ => false)).1.length = 1 ∧
     (handleAntiDelete true owner fmt nowStr mek s (fun _ => false)).2 = s) ∧
    ((handleAntiDelete true owner fmt nowStr mek s okFailSecond).1.length = 3 ∧
     (handleAntiDelete true owner fmt nowStr mek s okFailSecond).2
       = mapDelete s dkey.id) := by
  have hcond : (owner != "" && hasAtSign owner) = true := by
    simp [bne_iff_ne, h1, h2]
  constructor
  · constructor <;>
      simp [handleAntiDelete, hmek, hget, hcond, att]
  · constructor <;>
      simp [handleAntiDelete, hmek, hget, hcontent, hcond, att, okFailSecond]

/-- C4 witness: the amended statement at the concrete retained
`"Hello world"` message and its deletion notice. -/
theorem c4_amended_witness :
    ((handleAntiDelete true "boss@s.whatsapp.net" fmtConst "2024-01-02 00:00:00"
        deleteNotice helloStore (fun _ => false)).1.length = 1 ∧
     (handleAntiDelete true "boss@s.whatsapp.net" fmtConst "2024-01-02 00:00:00"
        deleteNotice helloStore (fun _ => false)).2 = helloStore) ∧
    ((handleAntiDelete true "boss@s.whatsapp.net" fmtConst "2024-01-02 00:00:00"
        deleteNotice helloStore okFailSecond).1.length = 3 ∧
     (handleAntiDelete true "boss@s.whatsapp.net" fmtConst "2024-01-02 00:00:00"
        deleteNotice helloStore okFailSecond).2 = mapDelete helloStore helloKey.id) :=
  c4_amended "boss@s.whatsapp.net" fmtConst "2024-01-02 00:00:00" deleteNotice
    helloStore helloKey helloStored (MsgContent.conversation "Hello world")
    rfl (by decide) rfl (by decide) (by decide)

/-! ## Helper lemmas: cache eviction -/

theorem mapSet_fresh (s : Store) (id : String) (v : StoredMsg)
    (h : ∀ p ∈ s, p.1 ≠ id) : mapSet s id v = s ++ [(id, v)] := by
  have hany : (s.any (fun p => p.1 == id)) = false := by
    rw [List.any_eq_false]
    intro p hp
    simp only [beq_iff_eq]
    exact h p hp
  unfold mapSet
  rw [hany]
  simp

theorem foldl_min_keep_first : ∀ (t : Store) (h : String × StoredMsg),
    (∀ q ∈ t, ¬ q.2.timestamp < h.2.timestamp) →
    t.foldl (fun acc q => if q.2.timestamp < acc.2.timestamp then q else acc) h = h
  | [], _, _ => rfl
  | x :: xs, h, hmin => by
    have hx : ¬ x.2.timestamp < h.2.timestamp := hmin x (by simp)
    simp only [List.foldl_cons, if_neg hx]
    exact foldl_min_keep_first xs h (fun q hq => hmin q (by simp [hq]))

theorem minTsKey_head (h : String × StoredMsg) (t : Store)
    (hmin : ∀ q ∈ t, ¬ q.2.timestamp < h.2.timestamp) :
    minTsKey (h :: t) = some h.1 := by
  simp only [minTsKey, minEntry]
  rw [foldl_min_keep_first t h hmin]
  rfl

theorem mapDelete_head (h : String × StoredMsg) (t : Store)
    (hfresh : ∀ p ∈ t, p.1 ≠ h.1) :
    mapDelete (h :: t) h.1 = t := by
  have hh : (h.1 != h.1) = false := by simp
  unfold mapDelete
  simp only [List.filter_cons, hh, Bool.false_eq_true, if_false]
  apply List.filter_eq_self.mpr
  intro p hp
  simp [bne_iff_ne, hfresh p hp]

theorem goodSeq_head_min (l : List (String × StoredMsg)) (hg : goodSeq l) :
    ∀ e ∈ l, (l.headD dummyEntry).2.timestamp ≤ e.2.timestamp := by
  cases l with
  | nil => intro e he; simp at he
  | cons h t =>
    intro e he
    rw [goodSeq, List.pairwise_cons] at hg
    rcases List.mem_cons.mp he with rfl | het
    · exact Nat.le_refl _
    · simp only [List.headD_cons]
      exact Nat.le_of_lt (hg.1 e het).2

/-- One `put` on a store whose entries are fresh-keyed and older than the
put: under capacity the entry is appended; at capacity the head (the
oldest-by-timestamp entry) is evicted and the entry appended. -/
theorem storePut_step (s : Store) (p : String × StoredMsg)
    (hlen : s.length ≤ 1000) (hg : goodSeq (s ++ [p])) :
    storePutRaw s p.1 p.2 =
      if s.length = 1000 then s.tail ++ [p] else s ++ [p] := by
  have hrel : ∀ a ∈ s, a.1 ≠ p.1 ∧ a.2.timestamp < p.2.timestamp := by
    rw [goodSeq, List.pairwise_append] at hg
    intro a ha
    exact hg.2.2 a ha p (by simp)
  have hset : mapSet s p.1 p.2 = s ++ [p] := by
    rw [mapSet_fresh s p.1 p.2 (fun q hq => (hrel q hq).1)]
  unfold storePutRaw
  dsimp only
  rw [hset]
  by_cases h1000 : s.length = 1000
  · rw [if_pos h1000]
    have hlen2 : (s ++ [p]).length > 1000 := by simp [h1000]
    rw [if_pos hlen2]
    obtain ⟨hd, tl, rfl⟩ : ∃ hd tl, s = hd :: tl := by
      cases s with
      | nil => simp at h1000
      | cons a l => exact ⟨a, l, rfl⟩
    have hcons : ∀ q ∈ tl ++ [p], hd.1 ≠ q.1 ∧ hd.2.timestamp < q.2.timestamp := by
      rw [goodSeq] at hg
      have hg2 : List.Pairwise
          (fun a b => a.1 ≠ b.1 ∧ a.2.timestamp < b.2.timestamp)
          (hd :: (tl ++ [p])) := by simpa using hg
      exact (List.pairwise_cons.mp hg2).1
    have hmink : minTsKey (hd :: (tl ++ [p])) = some hd.1 :=
      minTsKey_head hd (tl ++ [p])
        (fun q hq => by have := (hcons q hq).2; omega)
    have hdel : mapDelete (hd :: (tl ++ [p])) hd.1 = tl ++ [p] :=
      mapDelete_head hd (tl ++ [p]) (fun q hq => (hcons q hq).1.symm)
    simp only [List.cons_append, hmink, hdel, List.tail_cons]
  · rw [if_neg h1000]
    have : ¬ (s ++ [p]).length > 1000 := by
      simp only [List.length_append, List.length_cons, List.length_nil]
      omega
    rw [if_neg this]

/-- Closed form of a put sequence from a good store: the result is the
suffix of all entries that fits the 1000-entry capacity. -/
theorem runPuts_closed_form :
    ∀ (q : List (String × StoredMsg)) (s : Store),
      s.length ≤ 1000 → goodSeq (s ++ q) →
      runPuts s q = (s ++ q).drop (s.length + q.length - 1000)
  | [], s, hlen, _ => by
    simp only [runPuts, List.foldl_nil, List.append_nil, List.length_nil, Nat.add_zero]
    rw [Nat.sub_eq_zero_of_le hlen, List.drop_zero]
  | p :: q', s, hlen, hg => by
    have hgsp : goodSeq (s ++ [p]) := by
      rw [goodSeq]
      refine List.Pairwise.sublist ?_ hg
      exact List.Sublist.append_left
        (List.cons_sublist_cons.mpr (List.nil_sublist q')) s
    have hstep := storePut_step s p hlen hgsp
    have hrp : runPuts s (p :: q') = runPuts (storePutRaw s p.1 p.2) q' := rfl
    by_cases h1000 : s.length = 1000
    · obtain ⟨hd, tl, rfl⟩ : ∃ hd tl, s = hd :: tl := by
        cases s with
        | nil => simp at h1000
        | cons a l => exact ⟨a, l, rfl⟩
      have hstep' : storePutRaw (hd :: tl) p.1 p.2 = tl ++ [p] := by
        rw [hstep, if_pos h1000]
        simp
      have htl : tl.length = 999 := by
        simp only [List.length_cons] at h1000
        omega
      have hlen' : (tl ++ [p]).length ≤ 1000 := by
        simp [htl]
      have heq : (tl ++ [p]) ++ q' = tl ++ (p :: q') := by
        simp
      have hg' : goodSeq ((tl ++ [p]) ++ q') := by
        rw [goodSeq, heq]
        refine List.Pairwise.sublist ?_ hg
        rw [List.cons_append]
        exact List.Sublist.append (List.sublist_cons_self hd tl) (List.Sublist.refl _)
      have ih := runPuts_closed_form q' (tl ++ [p]) hlen' hg'
      have hidx1 : (tl ++ [p]).length + q'.length - 1000 = q'.length := by
        simp [htl]
      have hidx2 : (hd :: tl).length + (p :: q').length - 1000 = q'.length + 1 := by
        simp only [List.length_cons, htl]
        omega
      rw [hrp, hstep', ih, heq, hidx1, hidx2, List.cons_append, List.drop_succ_cons]
    · have hstep' : storePutRaw s p.1 p.2 = s ++ [p] := by
        rw [hstep, if_neg h1000]
      have hlen' : (s ++ [p]).length ≤ 1000 := by
        simp only [List.length_append, List.length_cons, List.length_nil]
        have := Nat.lt_of_le_of_ne hlen h1000
        omega
      have heq : (s ++ [p]) ++ q' = s ++ p :: q' := by simp
      have hg' : goodSeq ((s ++ [p]) ++ q') := by
        rw [goodSeq, heq]
        exact hg
      have ih := runPuts_closed_form q' (s ++ [p]) hlen' hg'
      have hidx : (s ++ [p]).length + q'.length - 1000
          = s.length + (p :: q').length - 1000 := by
        simp only [List.length_append, List.length_cons, List.length_nil]
        omega
      rw [hrp, hstep', ih, heq, hidx]

/-! ## Claim C2 -/

/-- C2: along any put sequence with distinct ids and strictly increasing
insertion timestamps, after each put the cache holds at most 1000 entries,
its contents are exactly the most recent entries (the suffix of the puts
that fits the capacity), each put appends its entry and evicts exactly one
entry — the head — precisely when the pre-put size is 1000, and that head
has the smallest insertion timestamp of all retained entries. -/
theorem c2_cache_eviction_bound (puts : List (String × StoredMsg)) (n : Nat)
    (hg : goodSeq puts) (hn : n < puts.length) :
    (runPuts [] (puts.take (n + 1))).length ≤ 1000 ∧
    runPuts [] (puts.take (n + 1)) = (puts.take (n + 1)).drop (n + 1 - 1000) ∧
    runPuts [] (puts.take (n + 1))
      = (if (runPuts [] (puts.take n)).length = 1000
          then (runPuts [] (puts.take n)).tail
          else runPuts [] (puts.take n)) ++ [puts.get ⟨n, hn⟩] ∧
    ((runPuts [] (puts.take n)).length = 1000 →
      ∀ e ∈ runPuts [] (puts.take n),
        ((runPuts [] (puts.take n)).headD dummyEntry).2.timestamp ≤ e.2.timestamp) := by
  have hgn : goodSeq (puts.take n) :=
    List.Pairwise.sublist (List.take_sublist n puts) hg
  have hgn1 : goodSeq (puts.take (n + 1)) :=
    List.Pairwise.sublist (List.take_sublist (n + 1) puts) hg
  have hlen_take_n : (puts.take n).length = n := by
    rw [List.length_take]
    omega
  have hlen_take_n1 : (puts.take (n + 1)).length = n + 1 := by
    rw [List.length_take]
    omega
  have hcf_n : runPuts [] (puts.take n) = (puts.take n).drop (n - 1000) := by
    have h0 := runPuts_closed_form (puts.take n) [] (by simp) (by simpa using hgn)
    simpa [hlen_take_n] using h0
  have hcf_n1 : runPuts [] (puts.take (n + 1))
      = (puts.take (n + 1)).drop (n + 1 - 1000) := by
    have h0 := runPuts_closed_form (puts.take (n + 1)) [] (by simp) (by simpa using hgn1)
    simpa [hlen_take_n1] using h0
  have htake : puts.take (n + 1) = puts.take n ++ [puts.get ⟨n, hn⟩] := by
    rw [List.take_succ, List.getElem?_eq_getElem hn]
    simp [List.get_eq_getElem]
  have hgn1' : goodSeq (puts.take n ++ [puts.get ⟨n, hn⟩]) := by
    rw [← htake]
    exact hgn1
  have hgpre : goodSeq (runPuts [] (puts.take n)) := by
    rw [hcf_n, goodSeq]
    exact List.Pairwise.sublist (List.drop_sublist _ _) hgn
  have hlen_run_n : (runPuts [] (puts.take n)).length ≤ 1000 := by
    rw [hcf_n, List.length_drop, hlen_take_n]
    omega
  have hg_sp : goodSeq (runPuts [] (puts.take n) ++ [puts.get ⟨n, hn⟩]) := by
    rw [hcf_n, goodSeq]
    exact List.Pairwise.sublist
      (List.Sublist.append (List.drop_sublist _ _) (List.Sublist.refl _)) hgn1'
  have hstep := storePut_step (runPuts [] (puts.take n)) (puts.get ⟨n, hn⟩)
    hlen_run_n hg_sp
  have hrun1 : runPuts [] (puts.take (n + 1))
      = storePutRaw (runPuts [] (puts.take n)) (puts.get ⟨n, hn⟩).1
          (puts.get ⟨n, hn⟩).2 := by
    rw [htake]
    unfold runPuts
    rw [List.foldl_append]
    rfl
  refine ⟨?_, hcf_n1, ?_, ?_⟩
  · rw [hcf_n1, List.length_drop, hlen_take_n1]
    omega
  · rw [hrun1, hstep]
    split_ifs <;> rfl
  · intro _
    exact goodSeq_head_min _ hgpre

/-- C2 witness: a two-put sequence observed after its first put. -/
theorem c2_witness :
    (runPuts [] (putsSample.take (0 + 1))).length ≤ 1000 ∧
    runPuts [] (putsSample.take (0 + 1)) = (putsSample.take (0 + 1)).drop (0 + 1 - 1000) ∧
    runPuts [] (putsSample.take (0 + 1))
      = (if (runPuts [] (putsSample.take 0)).length = 1000
          then (runPuts [] (putsSample.take 0)).tail
          else runPuts [] (putsSample.take 0)) ++ [putsSample.get ⟨0, by decide⟩] ∧
    ((runPuts [] (putsSample.take 0)).length = 1000 →
      ∀ e ∈ runPuts [] (putsSample.take 0),
        ((runPuts [] (putsSample.take 0)).headD dummyEntry).2.timestamp ≤ e.2.timestamp) :=
  c2_cache_eviction_bound putsSample 0 (by unfold goodSeq putsSample; decide) (by decide)

end BuddyXTR
